import Mathlib

/-!
Shallow embedding of `src/SQL.py` (RhythmUEBA log-ingestion pipeline).

The Python program polls a directory of log files, extracts fields per line
with regular expressions, filters lines by a durable bookmark timestamp,
inserts rows into MySQL tagged with a cluster id, and persists the bookmark.
Pure string/time computations are translated directly; interactions with the
database are modelled by passing the table contents (a list of rows) and a
success flag for the externally-caused failure modes the source catches.
-/

namespace SQLPy

/-! ## Python string helpers -/

/-- Whitespace characters stripped by Python `str.strip()` (ASCII range). -/
def isWS (c : Char) : Bool :=
  c = ' ' || c = '\t' || c = '\n' || c = '\r' || c = '\x0b' || c = '\x0c'

/-- Python `str.strip()` on a character list. -/
def pyStrip (l : List Char) : List Char :=
  ((l.dropWhile isWS).reverse.dropWhile isWS).reverse

/-- Python `str.strip()` on a string. -/
def pyStripStr (s : String) : String := String.mk (pyStrip s.toList)

/-! ## Timestamps (`datetime` values produced by `strptime`) -/

/-- A parsed timestamp, mirroring the fields of a Python `datetime`
(truncated to whole seconds, as the source always does). -/
structure DT where
  year : Nat
  month : Nat
  day : Nat
  hour : Nat
  minute : Nat
  second : Nat
deriving DecidableEq

/-- Injective encoding of a (range-valid) timestamp into seconds-like units;
Python `datetime` comparison is component-lexicographic, which this encoding
realises for in-range components. -/
def DT.toSec (t : DT) : Nat :=
  ((((t.year * 13 + t.month) * 32 + t.day) * 24 + t.hour) * 60 + t.minute) * 60 + t.second

/-- Day count of a month, with the Gregorian leap rule (Python `datetime`
validation). -/
def daysInMonth (y m : Nat) : Nat :=
  if m = 2 then (if (y % 4 = 0 ∧ y % 100 ≠ 0) ∨ y % 400 = 0 then 29 else 28)
  else if m = 4 ∨ m = 6 ∨ m = 9 ∨ m = 11 then 30 else 31

/-- Range validity of a timestamp's components, as enforced by Python
`strptime` plus the `datetime` constructor. -/
def DT.Valid (t : DT) : Prop :=
  1 ≤ t.year ∧ t.year ≤ 9999 ∧ 1 ≤ t.month ∧ t.month ≤ 12 ∧
  1 ≤ t.day ∧ t.day ≤ daysInMonth t.year t.month ∧
  t.hour ≤ 23 ∧ t.minute ≤ 59 ∧ t.second ≤ 59

instance (t : DT) : Decidable t.Valid := by
  unfold DT.Valid; infer_instance

/-! ## Digit helpers and `strftime` -/

/-- Character for a decimal digit value. -/
def digitChar (n : Nat) : Char := Char.ofNat (48 + n)

/-- Numeric value of a decimal digit character. -/
def digitVal (c : Char) : Nat := c.toNat - 48

/-- Two-digit zero-padded decimal rendering. -/
def pad2 (n : Nat) : List Char := [digitChar (n / 10), digitChar (n % 10)]

/-- Four-digit zero-padded decimal rendering. -/
def pad4 (n : Nat) : List Char :=
  [digitChar (n / 1000), digitChar (n / 100 % 10), digitChar (n / 10 % 10), digitChar (n % 10)]

/-- Python `dt.strftime(\x22%Y-%m-%d %H:%M:%S\x22)` as a character list. -/
def strftimeL (t : DT) : List Char :=
  pad4 t.year ++ ('-' :: pad2 t.month) ++ ('-' :: pad2 t.day) ++
  (' ' :: pad2 t.hour) ++ (':' :: pad2 t.minute) ++ (':' :: pad2 t.second)

/-- Python `dt.strftime(\x22%Y-%m-%d %H:%M:%S\x22)` as a string. -/
def strftimeStr (t : DT) : String := String.mk (strftimeL t)

/-! ## `strptime` for the two fixed formats used by the source -/

/-- Read exactly four digits (Python `strptime` `%Y`). -/
def readYear : List Char → Option (Nat × List Char)
  | a :: b :: c :: d :: rest =>
    if a.isDigit = true ∧ b.isDigit = true ∧ c.isDigit = true ∧ d.isDigit = true then
      some (1000 * digitVal a + 100 * digitVal b + 10 * digitVal c + digitVal d, rest)
    else none
  | _ => none

/-- Read a one- or two-digit field the way Python `strptime` numeric
directives do: a two-digit form whose value lies in `[twoLo, twoHi]`,
else a single digit whose value lies in `[oneLo, oneHi]`. -/
def readNum (twoLo twoHi oneLo oneHi : Nat) : List Char → Option (Nat × List Char)
  | a :: b :: rest =>
    if a.isDigit = true ∧ b.isDigit = true ∧ twoLo ≤ 10 * digitVal a + digitVal b ∧
        10 * digitVal a + digitVal b ≤ twoHi then
      some (10 * digitVal a + digitVal b, rest)
    else if a.isDigit = true ∧ oneLo ≤ digitVal a ∧ digitVal a ≤ oneHi then
      some (digitVal a, b :: rest)
    else none
  | [a] =>
    if a.isDigit = true ∧ oneLo ≤ digitVal a ∧ digitVal a ≤ oneHi then
      some (digitVal a, [])
    else none
  | [] => none

/-- Consume one expected literal character. -/
def expectChar (c : Char) : List Char → Option (List Char)
  | [] => none
  | x :: rest => if x = c then some rest else none

/-- Python `datetime.strptime` restricted to the two formats the source uses:
`%Y-%m-%d<sep>%H:%M:%S` followed by a literal `Z` when `withZ` is true
(`sep` is a space for the bookmark format, `T` for the SystemTime format).
The whole input must be consumed, and the date must be calendar-valid. -/
def parseStamp (sep : Char) (withZ : Bool) (s : List Char) : Option DT :=
  match readYear s with
  | none => none
  | some (y, r1) =>
    match expectChar '-' r1 with
    | none => none
    | some r2 =>
      match readNum 1 12 1 9 r2 with
      | none => none
      | some (mo, r3) =>
        match expectChar '-' r3 with
        | none => none
        | some r4 =>
          match readNum 1 31 1 9 r4 with
          | none => none
          | some (d, r5) =>
            match expectChar sep r5 with
            | none => none
            | some r6 =>
              match readNum 0 23 0 9 r6 with
              | none => none
              | some (h, r7) =>
                match expectChar ':' r7 with
                | none => none
                | some r8 =>
                  match readNum 0 59 0 9 r8 with
                  | none => none
                  | some (mi, r9) =>
                    match expectChar ':' r9 with
                    | none => none
                    | some r10 =>
                      match readNum 0 59 0 9 r10 with
                      | none => none
                      | some (sec, r11) =>
                        match (if withZ then expectChar 'Z' r11 else some r11) with
                        | none => none
                        | some r12 =>
                          if r12 = [] ∧ 1 ≤ y ∧ d ≤ daysInMonth y mo then
                            some ⟨y, mo, d, h, mi, sec⟩
                          else none

/-! ## Regex field extraction (`re.search` with the source's fixed patterns)

Each pattern in the source is a literal anchor followed by a capture group.
`searchWith lit scan` scans the line left to right; at each position where
`lit` is a prefix it runs the capture scanner on the remainder, and on
scanner failure moves on to the next occurrence, exactly as `re.search`
backtracks over starting positions. -/

/-- Generic `re.search` over a literal anchor plus a capture scanner. -/
def searchWith (lit : List Char) (scan : List Char → Option (List Char)) :
    List Char → Option (List Char)
  | [] => none
  | c :: cs =>
    if lit.isPrefixOf (c :: cs) then
      match scan (List.drop lit.length (c :: cs)) with
      | some cap => some cap
      | none => searchWith lit scan cs
    else searchWith lit scan cs

/-- Capture scanner for a lazy group closed by one character, as in
`(.*?)\x22` or `(.*?)\]`: the shortest run of non-newline characters before
the closing character. -/
def takeUntil (close : Char) : List Char → Option (List Char)
  | [] => none
  | c :: cs =>
    if c = close then some []
    else if c = '\n' then none
    else (takeUntil close cs).map (fun r => c :: r)

/-- Capture scanner for the description pattern
`((?:[^\x22\x5c\x5c]|\x5c\x5c.)*)\x22`: runs of plain characters or
backslash escapes, closed by an unescaped quote. -/
def takeDescr : List Char → Option (List Char)
  | [] => none
  | c :: cs =>
    if c = '"' then some []
    else if c = '\\' then
      match cs with
      | [] => none
      | d :: ds => if d = '\n' then none else (takeDescr ds).map (fun r => c :: d :: r)
    else (takeDescr cs).map (fun r => c :: r)

/-- Capture scanner for `(\d+)`: a non-empty maximal digit run. -/
def takeDigits (l : List Char) : Option (List Char) :=
  let ds := l.takeWhile Char.isDigit
  if ds = [] then none else some ds

/-- Anchor of the pattern `\x22title\x22:\x22(.*?)\x22`. -/
def titleLit : List Char := "\"title\":\"".toList

/-- Anchor of the pattern `\x22tags\x22:\[(.*?)\]`. -/
def tagsLit : List Char := "\"tags\":[".toList

/-- Anchor of the description pattern. -/
def descrLit : List Char := "\"description\":\"".toList

/-- Anchor of the pattern `\x22SystemTime\x22:\x22(.*?)\x22`. -/
def sysTimeLit : List Char := "\"SystemTime\":\"".toList

/-- Anchor of the pattern `\x22Computer\x22:\x22(.*?)\x22`. -/
def computerLit : List Char := "\"Computer\":\"".toList

/-- Anchor of the pattern `\x22UserID\x22:\x22(.*?)\x22`. -/
def userIdLit : List Char := "\"UserID\":\"".toList

/-- Anchor of the pattern `\x22EventID\x22:(\d+)`. -/
def eventIdLit : List Char := "\"EventID\":".toList

/-- Anchor of the pattern `\x22Provider_Name\x22:\x22(.*?)\x22`. -/
def providerLit : List Char := "\"Provider_Name\":\"".toList

/-- `title.group(1).strip() if title else None`. -/
def extract_title (cl : List Char) : Option String :=
  (searchWith titleLit (takeUntil '"') cl).map (fun g => String.mk (pyStrip g))

/-- `tags.group(1).replace(QUOTE, EMPTY).strip() if tags else None`. -/
def extract_tags (cl : List Char) : Option String :=
  (searchWith tagsLit (takeUntil ']') cl).map
    (fun g => String.mk (pyStrip (g.filter (fun c => c ≠ '"'))))

/-- `description.group(1).strip() if description else None`. -/
def extract_description (cl : List Char) : Option String :=
  (searchWith descrLit takeDescr cl).map (fun g => String.mk (pyStrip g))

/-- `computer_name.group(1).strip() if computer_name else None`. -/
def extract_computer_name (cl : List Char) : Option String :=
  (searchWith computerLit (takeUntil '"') cl).map (fun g => String.mk (pyStrip g))

/-- `user_id.group(1).strip() if user_id else None`. -/
def extract_user_id (cl : List Char) : Option String :=
  (searchWith userIdLit (takeUntil '"') cl).map (fun g => String.mk (pyStrip g))

/-- `event_id.group(1).strip() if event_id else None`. -/
def extract_event_id (cl : List Char) : Option String :=
  (searchWith eventIdLit takeDigits cl).map (fun g => String.mk (pyStrip g))

/-- `provider_name.group(1).strip() if provider_name else None`. -/
def extract_provider_name (cl : List Char) : Option String :=
  (searchWith providerLit (takeUntil '"') cl).map (fun g => String.mk (pyStrip g))

/-- The SystemTime conversion of lines 166-167: remove every space from the
captured group, keep the portion before the first dot, append `Z`, and parse
with format `%Y-%m-%dT%H:%M:%SZ`. -/
def convert_system_time (g : List Char) : Option DT :=
  parseStamp 'T' true (((g.filter (fun c => c ≠ ' ')).takeWhile (fun c => c ≠ '.')) ++ ['Z'])

/-- The SystemTime value of a whole line: the regex capture, when present,
converted; `none` when the regex does not match or the conversion fails. -/
def lineTime (line : String) : Option DT :=
  (searchWith sysTimeLit (takeUntil '"') line.toList).bind convert_system_time

/-! ## Records and `process_log_file` -/

/-- One extracted row, in the source's tuple order (line 176). The
`system_time` field is the already-formatted string the source appends,
and `raw` is `line.strip()`. -/
structure Record where
  title : Option String
  tags : Option String
  description : Option String
  system_time : String
  computer_name : Option String
  user_id : Option String
  event_id : Option String
  provider_name : Option String
  raw : String
deriving DecidableEq

/-- The tuple appended at line 176 for a line whose SystemTime parsed to `t`. -/
def extractRecord (cl : List Char) (t : DT) : Record :=
  { title := extract_title cl
    tags := extract_tags cl
    description := extract_description cl
    system_time := strftimeStr t
    computer_name := extract_computer_name cl
    user_id := extract_user_id cl
    event_id := extract_event_id cl
    provider_name := extract_provider_name cl
    raw := String.mk (pyStrip cl) }

/-- `if not latest_time or system_time > latest_time: latest_time = system_time`. -/
def bumpCand (cand : Option DT) (t : DT) : Option DT :=
  match cand with
  | none => some t
  | some c => if c.toSec < t.toSec then some t else cand

/-- One iteration of the line loop of `process_log_file` (lines 139-179).
A blank line is skipped. When the SystemTime regex fails to match or its
capture fails to parse, the Python variable `system_time` is `None` at the
append of line 176, whose `system_time.strftime(...)` raises
`AttributeError`; the per-line handler at line 178 catches it, so the line
produces no record. A parsed time at or before the watermark is skipped.
Otherwise the candidate is bumped and the record emitted. -/
def lineStep (wm cand : Option DT) (line : String) : Option Record × Option DT :=
  let cl := line.toList
  if pyStrip cl = [] then (none, cand)
  else
    match lineTime line with
    | none => (none, cand)
    | some t =>
      match wm with
      | some w =>
        if t.toSec ≤ w.toSec then (none, cand)
        else (some (extractRecord cl t), bumpCand cand t)
      | none => (some (extractRecord cl t), bumpCand cand t)

/-- The line loop of `process_log_file`, threading the accumulated records
and the candidate `latest_time`. -/
def plfAux (wm : Option DT) : List String → List Record × Option DT → List Record × Option DT
  | [], st => st
  | l :: ls, (acc, cand) =>
    match lineStep wm cand l with
    | (some r, c2) => plfAux wm ls (acc ++ [r], c2)
    | (none, c2) => plfAux wm ls (acc, c2)

/-- `process_log_file` (lines 129-183): the file content is the list of its
lines when the read succeeds, or a read error. `latest_time` starts at
`last_processed_time`, and on a read error the function returns
`([], last_processed_time)` via the outer handler at line 180. -/
def process_log_file (content : Except Unit (List String)) (wm : Option DT) :
    List Record × Option DT :=
  match content with
  | .error _ => ([], wm)
  | .ok lines => plfAux wm lines ([], wm)

/-! ## Bookmark store (`read_last_processed_time` / `update_last_processed_time`)

The bookmark file is modelled as `Option String`: `none` when the file does
not exist, `some content` otherwise. -/

/-- `read_last_processed_time` (lines 102-116): `None` when the file is
absent, its stripped content is empty, or parsing with
`%Y-%m-%d %H:%M:%S` fails. -/
def read_last_processed_time (bookmarkFile : Option String) : Option DT :=
  match bookmarkFile with
  | none => none
  | some content =>
    let c := pyStrip content.toList
    if c = [] then none else parseStamp ' ' false c

/-- `update_last_processed_time` (lines 119-126): the content written to the
bookmark file for a `datetime` argument. -/
def update_last_processed_time (t : DT) : String := strftimeStr t

/-! ## Sink (`sigma_alerts` table) and the database functions

Database failures the source catches (`mysql.connector.Error` raised by a
query on an established connection) are modelled by a success flag; on
failure the Python functions log and fall through, which the model mirrors. -/

/-- One row of `sigma_alerts` as inserted at line 215: the record's fields
plus the batch's `dbscan_cluster` value. -/
structure SinkRow where
  record : Record
  dbscan_cluster : Int
deriving DecidableEq

/-- Result of `SELECT MAX(dbscan_cluster) FROM sigma_alerts`: `NULL` (here
`none`) on an empty table, otherwise the maximum. -/
def maxClusterQuery (rows : List SinkRow) : Option Int :=
  match rows.map (fun r => r.dbscan_cluster) with
  | [] => none
  | c :: cs => some (cs.foldl max c)

/-- `get_max_cluster_value` (lines 186-199): the fetched cell when non-NULL,
`0` when the cell is NULL, and `0` when the query raises an `Error`
(caught at line 194). The argument is the outcome of the external query. -/
def get_max_cluster_value (q : Except Unit (Option Int)) : Int :=
  match q with
  | .error _ => 0
  | .ok none => 0
  | .ok (some v) => v

/-- `insert_data_to_sql` (lines 202-223) restricted to `sigma_alerts`: with
data present, appends every row tagged with `cluster_value` (the
`BATCH_SIZE` chunking commits chunks in order, so a fully successful call
appends the rows in order). An `Error` during insertion is caught at line
219 and the function returns normally, modelled by `insertOk = false`
leaving the table unchanged. -/
def insert_data_to_sql (insertOk : Bool) (sink : List SinkRow) (data : List Record)
    (cluster_value : Int) : List SinkRow :=
  if data.isEmpty then sink
  else if insertOk then sink ++ data.map (fun r => { record := r, dbscan_cluster := cluster_value })
  else sink

/-- `process_and_insert_log` (lines 251-258): process one file; when records
were produced, fetch `get_max_cluster_value() + 1` and insert; always return
`latest_time`. `queryOk` and `insertOk` select the external failure modes. -/
def process_and_insert_log (queryOk insertOk : Bool) (sink : List SinkRow)
    (wm : Option DT) (content : Except Unit (List String)) :
    List SinkRow × Option DT :=
  let pr := process_log_file content wm
  if pr.1.isEmpty then (sink, pr.2)
  else
    let cluster_value :=
      get_max_cluster_value (if queryOk then Except.ok (maxClusterQuery sink) else Except.error ()) + 1
    (insert_data_to_sql insertOk sink pr.1 cluster_value, pr.2)

/-! ## Coordinator (`monitor_folder`)

The worker pool completes files in some order; the model processes the
cycle's file list sequentially in that order, which also serialises the
database accesses. A file is a name paired with its read outcome. -/

/-- The coordinator's state: the sink table, the in-memory
`last_processed_time`, the bookmark file, and the in-memory
`processed_files` set (as the list of names added, in order). -/
structure CoordState where
  sink : List SinkRow
  lpt : Option DT
  bookmark : Option String
  seen : List String
deriving DecidableEq

/-- The per-future update of `last_processed_time` (lines 297-299):
`if result and (last_processed_time is None or result > last_processed_time)`.
A `datetime` is always truthy, so `result` is truthy exactly when not `None`. -/
def updateLpt (lpt result : Option DT) : Option DT :=
  match result with
  | none => lpt
  | some t =>
    match lpt with
    | none => some t
    | some l => if l.toSec < t.toSec then some t else lpt

/-- The body of the `as_completed` loop (lines 294-300) for one completed
file: insert its data, fold its candidate into `last_processed_time`, and
add it to `processed_files`. -/
def cycleStep (queryOk insertOk : Bool) (wm0 : Option DT)
    (p : List SinkRow × Option DT × List String)
    (f : String × Except Unit (List String)) :
    List SinkRow × Option DT × List String :=
  let q := process_and_insert_log queryOk insertOk p.1 wm0 f.2
  (q.1, updateLpt p.2.1 q.2, p.2.2 ++ [f.1])

/-- One steady-state cycle of `monitor_folder` (lines 287-305) over the
cycle's new files: every future is submitted with the cycle-start
`last_processed_time`; each completed file updates `last_processed_time`
and is added to `processed_files` (`process_and_insert_log` returns
normally for every modelled file, so the handler at line 301 never fires);
at cycle end a non-`None` `last_processed_time` is persisted. -/
def runCycle (queryOk insertOk : Bool) (st : CoordState)
    (files : List (String × Except Unit (List String))) : CoordState :=
  let res := files.foldl (cycleStep queryOk insertOk st.lpt) (st.sink, st.lpt, st.seen)
  { sink := res.1
    lpt := res.2.1
    bookmark := match res.2.1 with
      | some t => some (update_last_processed_time t)
      | none => st.bookmark
    seen := res.2.2 }

/-- A sequence of steady-state cycles, each with its external failure flags
and its list of new files. -/
def runCycles (st : CoordState)
    (cycles : List (Bool × Bool × List (String × Except Unit (List String)))) : CoordState :=
  cycles.foldl (fun s c => runCycle c.1 c.2.1 s c.2.2) st

/-- The bootstrap phase of `monitor_folder` (lines 263-285): read the
bookmark; when absent, process every listed file with watermark `None`,
reduce the candidates, and persist a non-`None` result; the bootstrap loop
does not touch `processed_files`. When a bookmark exists, only load it. -/
def monitor_bootstrap (queryOk insertOk : Bool) (sink0 : List SinkRow)
    (bookmarkFile : Option String)
    (files : List (String × Except Unit (List String))) : CoordState :=
  match read_last_processed_time bookmarkFile with
  | none =>
    let res := files.foldl
      (fun (p : List SinkRow × Option DT) f =>
        let q := process_and_insert_log queryOk insertOk p.1 none f.2
        (q.1, updateLpt p.2 q.2))
      (sink0, none)
    { sink := res.1
      lpt := res.2
      bookmark := match res.2 with
        | some t => some (update_last_processed_time t)
        | none => bookmarkFile
      seen := [] }
  | some t0 => { sink := sink0, lpt := some t0, bookmark := bookmarkFile, seen := [] }

/-! ## Order on optional timestamps, and the coordinator invariant -/

/-- Ordering on optional timestamps: an absent value is below everything;
present values compare as the `datetime`s they denote. -/
def obLe (a b : Option DT) : Bool :=
  match a, b with
  | none, _ => true
  | some _, none => false
  | some x, some y => decide (x.toSec ≤ y.toSec)

/-- An optional timestamp is range-valid when present. -/
def optValidB (o : Option DT) : Bool :=
  match o with
  | none => true
  | some t => decide t.Valid

/-- Coordinator invariant: the timestamp readable from the bookmark file is
at most the in-memory `last_processed_time`, and the in-memory value is a
range-valid timestamp. This holds on entry to the steady-state loop
(bootstrap either leaves both absent, or persists exactly the in-memory
value, which was produced by `strptime`). -/
def Inv (st : CoordState) : Prop :=
  obLe (read_last_processed_time st.bookmark) st.lpt = true ∧ optValidB st.lpt = true

instance (st : CoordState) : Decidable (Inv st) := by
  unfold Inv
  infer_instance

/-! ## Concrete scenario inputs used by the claim-level theorems -/

/-- A log line whose SystemTime is `2024-01-01 00:00:0s` (one-digit `s`). -/
def lineSec (s : Nat) : String :=
  "\"SystemTime\":\"2024-01-01T00:00:0" ++ toString s ++ ".0Z\""

/-- Timestamp `2024-01-01 00:00:01`. -/
def dt1 : DT := ⟨2024, 1, 1, 0, 0, 1⟩

/-- A pre-existing sink row (an arbitrary record) carrying cluster id 5. -/
def priorRow5 : SinkRow :=
  { record := ⟨none, none, none, "x", none, none, none, none, "x"⟩, dbscan_cluster := 5 }

/-- A pre-existing sink row carrying cluster id 1. -/
def priorRow1 : SinkRow :=
  { record := ⟨none, none, none, "x", none, none, none, none, "x"⟩, dbscan_cluster := 1 }

/-- A steady-state coordinator state: empty sink, in-memory watermark and
persisted bookmark both at `2024-01-01 00:00:01`, no files seen yet. -/
def stSteady : CoordState :=
  { sink := [], lpt := some dt1, bookmark := some "2024-01-01 00:00:01", seen := [] }

/-- The bootstrap directory of claim C2: three files of two valid
timestamped lines each, at seconds 1..6. -/
def bootFiles : List (String × Except Unit (List String)) :=
  [("a.log", .ok [lineSec 1, lineSec 2]),
   ("b.log", .ok [lineSec 3, lineSec 4]),
   ("c.log", .ok [lineSec 5, lineSec 6])]

/-- The bootstrap run of claim C2 over a sink whose maximum cluster id is 5,
with no bookmark present and no external failures. -/
def bootSt : CoordState := monitor_bootstrap true true [priorRow5] none bootFiles

/-- A line with no SystemTime field at all (but a parseable title). -/
def noTimeLine : String := "\"title\":\"Alert C\""

/-- A line whose SystemTime capture fails to parse (but with a parseable
title). -/
def badTimeLine : String := "\"title\":\"Alert B\",\"SystemTime\":\"garbage\""

/-- An emittable line carrying leading and trailing whitespace. -/
def trailingLine : String := " \"SystemTime\":\"2024-01-01T00:00:02.0Z\" "

/-- The record the File Processor emits for `trailingLine` on a first run. -/
def trailingRec : Record :=
  { title := none, tags := none, description := none
    system_time := "2024-01-01 00:00:02"
    computer_name := none, user_id := none, event_id := none, provider_name := none
    raw := "\"SystemTime\":\"2024-01-01T00:00:02.0Z\"" }

/-! ## Helper lemmas: digits, `strptime`/`strftime` round trip, validity -/

theorem isDigit_digitChar {k : Nat} (h : k ≤ 9) : (digitChar k).isDigit = true := by
  interval_cases k <;> decide

theorem digitVal_digitChar {k : Nat} (h : k ≤ 9) : digitVal (digitChar k) = k := by
  interval_cases k <;> decide

theorem digitVal_le_of_isDigit {c : Char} (h : c.isDigit = true) : digitVal c ≤ 9 := by
  unfold Char.isDigit at h
  rw [Bool.and_eq_true, decide_eq_true_eq, decide_eq_true_eq] at h
  have h2 : c.val ≤ 57 := h.2
  rw [UInt32.le_def, BitVec.le_def] at h2
  have h4 : ((57 : UInt32).toBitVec).toNat = 57 := by decide
  have h5 : (c.val.toBitVec).toNat = c.toNat := rfl
  simp only [digitVal]
  omega

theorem readYear_pad4 {y : Nat} (h : y ≤ 9999) (rest : List Char) :
    readYear (pad4 y ++ rest) = some (y, rest) := by
  have d1 : y / 1000 ≤ 9 := by omega
  have d2 : y / 100 % 10 ≤ 9 := by omega
  have d3 : y / 10 % 10 ≤ 9 := by omega
  have d4 : y % 10 ≤ 9 := by omega
  simp only [pad4, List.cons_append, List.nil_append, readYear]
  rw [if_pos ⟨isDigit_digitChar d1, isDigit_digitChar d2, isDigit_digitChar d3,
    isDigit_digitChar d4⟩]
  rw [digitVal_digitChar d1, digitVal_digitChar d2, digitVal_digitChar d3, digitVal_digitChar d4]
  have hy : 1000 * (y / 1000) + 100 * (y / 100 % 10) + 10 * (y / 10 % 10) + y % 10 = y := by omega
  rw [hy]

theorem readNum_pad2 {v twoLo twoHi : Nat} (oneLo oneHi : Nat) (h : v ≤ 99)
    (h1 : twoLo ≤ v) (h2 : v ≤ twoHi) (rest : List Char) :
    readNum twoLo twoHi oneLo oneHi (pad2 v ++ rest) = some (v, rest) := by
  have d1 : v / 10 ≤ 9 := by omega
  have d2 : v % 10 ≤ 9 := by omega
  simp only [pad2, List.cons_append, List.nil_append, readNum]
  rw [digitVal_digitChar d1, digitVal_digitChar d2]
  have hv : 10 * (v / 10) + v % 10 = v := by omega
  rw [hv, if_pos ⟨isDigit_digitChar d1, isDigit_digitChar d2, h1, h2⟩]

theorem readNum_pad2_nil {v twoLo twoHi : Nat} (oneLo oneHi : Nat) (h : v ≤ 99)
    (h1 : twoLo ≤ v) (h2 : v ≤ twoHi) :
    readNum twoLo twoHi oneLo oneHi (pad2 v) = some (v, []) := by
  have hh := readNum_pad2 oneLo oneHi h h1 h2 ([] : List Char)
  rwa [List.append_nil] at hh

theorem expectChar_cons (c : Char) (rest : List Char) :
    expectChar c (c :: rest) = some rest := by
  simp [expectChar]

theorem day_le_31 {t : DT} (h6 : t.day ≤ daysInMonth t.year t.month) : t.day ≤ 31 := by
  unfold daysInMonth at h6
  split at h6
  · split at h6 <;> omega
  · split at h6 <;> omega

theorem parseStamp_strftime {t : DT} (h : t.Valid) :
    parseStamp ' ' false (strftimeL t) = some t := by
  obtain ⟨h1, h2, h3, h4, h5, h6, h7, h8, h9⟩ := h
  have hd31 : t.day ≤ 31 := day_le_31 h6
  simp only [strftimeL, List.append_assoc, List.cons_append, List.nil_append, parseStamp,
    readYear_pad4 h2, expectChar_cons,
    readNum_pad2 1 9 (show t.month ≤ 99 by omega) h3 h4,
    readNum_pad2 1 9 (show t.day ≤ 99 by omega) h5 hd31,
    readNum_pad2 0 9 (show t.hour ≤ 99 by omega) (Nat.zero_le _) h7,
    readNum_pad2 0 9 (show t.minute ≤ 99 by omega) (Nat.zero_le _) h8,
    readNum_pad2_nil 0 9 (show t.second ≤ 99 by omega) (Nat.zero_le _) h9,
    Bool.false_eq_true, if_false]
  rw [if_pos ⟨trivial, h1, h6⟩]

theorem readYear_bounds {s : List Char} {y : Nat} {r : List Char}
    (h : readYear s = some (y, r)) : y ≤ 9999 := by
  rcases s with _ | ⟨a, _ | ⟨b, _ | ⟨c, _ | ⟨d, rest⟩⟩⟩⟩ <;> simp [readYear] at h
  obtain ⟨⟨ha, hb, hc, hd⟩, hv, _⟩ := h
  have := digitVal_le_of_isDigit ha
  have := digitVal_le_of_isDigit hb
  have := digitVal_le_of_isDigit hc
  have := digitVal_le_of_isDigit hd
  omega

theorem readNum_bounds {a2 b2 a1 b1 : Nat} {s : List Char} {v : Nat} {r : List Char}
    (h : readNum a2 b2 a1 b1 s = some (v, r)) :
    (a2 ≤ v ∧ v ≤ b2) ∨ (a1 ≤ v ∧ v ≤ b1) := by
  rcases s with _ | ⟨a, _ | ⟨b, rest⟩⟩ <;> simp [readNum] at h
  · obtain ⟨⟨_, h1, h2⟩, hv, _⟩ := h
    right; omega
  · by_cases hc : a.isDigit = true ∧ b.isDigit = true ∧ a2 ≤ 10 * digitVal a + digitVal b ∧
        10 * digitVal a + digitVal b ≤ b2
    · rw [if_pos hc] at h
      obtain ⟨hv, _⟩ := Option.some.injEq .. ▸ h
      obtain ⟨_, _, hl, hr⟩ := hc
      left; omega
    · rw [if_neg hc] at h
      split at h
      · next hc2 =>
        obtain ⟨hv, _⟩ := Option.some.injEq .. ▸ h
        obtain ⟨_, hl, hr⟩ := hc2
        right; omega
      · exact absurd h (by simp)

theorem parseStamp_valid {sep : Char} {z : Bool} {s : List Char} {t : DT}
    (h : parseStamp sep z s = some t) : t.Valid := by
  unfold parseStamp at h
  split at h
  · exact absurd h (by simp)
  next y r1 hY =>
  split at h
  · exact absurd h (by simp)
  next r2 hE1 =>
  split at h
  · exact absurd h (by simp)
  next mo r3 hM =>
  split at h
  · exact absurd h (by simp)
  next r4 hE2 =>
  split at h
  · exact absurd h (by simp)
  next d r5 hD =>
  split at h
  · exact absurd h (by simp)
  next r6 hE3 =>
  split at h
  · exact absurd h (by simp)
  next hh r7 hH =>
  split at h
  · exact absurd h (by simp)
  next r8 hE4 =>
  split at h
  · exact absurd h (by simp)
  next mi r9 hMi =>
  split at h
  · exact absurd h (by simp)
  next r10 hE5 =>
  split at h
  · exact absurd h (by simp)
  next sec r11 hS =>
  split at h
  · exact absurd h (by simp)
  next r12 hZ =>
  split at h
  · next hc =>
    obtain ⟨_, hy1, hdm⟩ := hc
    obtain rfl := Option.some.injEq .. ▸ h
    have hy2 := readYear_bounds hY
    have hmo := readNum_bounds hM
    have hd := readNum_bounds hD
    have hho := readNum_bounds hH
    have hmi := readNum_bounds hMi
    have hs := readNum_bounds hS
    unfold DT.Valid
    dsimp only
    refine ⟨hy1, hy2, ?_, ?_, ?_, hdm, ?_, ?_, ?_⟩ <;> omega
  · exact absurd h (by simp)

theorem notWS_digitChar {k : Nat} (h : k ≤ 9) : isWS (digitChar k) = false := by
  interval_cases k <;> decide

theorem dropWhile_id_of_head (l : List Char) (h : ∀ c, l.head? = some c → isWS c = false) :
    l.dropWhile isWS = l := by
  cases l with
  | nil => rfl
  | cons a as => rw [List.dropWhile_cons, h a rfl]; simp

theorem pyStrip_eq_self {l : List Char} (h1 : ∀ c, l.head? = some c → isWS c = false)
    (h2 : ∀ c, l.getLast? = some c → isWS c = false) : pyStrip l = l := by
  unfold pyStrip
  rw [dropWhile_id_of_head l h1]
  rw [dropWhile_id_of_head l.reverse (fun c hc => h2 c (by rwa [List.head?_reverse] at hc))]
  exact List.reverse_reverse l

theorem strftimeL_head (t : DT) : (strftimeL t).head? = some (digitChar (t.year / 1000)) := by
  simp [strftimeL, pad4, List.cons_append]

theorem strftimeL_getLast (t : DT) :
    (strftimeL t).getLast? = some (digitChar (t.second % 10)) := by
  simp [strftimeL, pad4, pad2, List.cons_append, List.nil_append, List.getLast?]

theorem pyStrip_strftimeL {t : DT} (hv : t.Valid) : pyStrip (strftimeL t) = strftimeL t := by
  have hy : t.year / 1000 ≤ 9 := by
    obtain ⟨_, h2, _⟩ := hv
    omega
  apply pyStrip_eq_self
  · intro c hc
    rw [strftimeL_head] at hc
    obtain rfl := Option.some.injEq .. ▸ hc
    exact notWS_digitChar hy
  · intro c hc
    rw [strftimeL_getLast] at hc
    obtain rfl := Option.some.injEq .. ▸ hc
    exact notWS_digitChar (by omega)

theorem read_strftime {t : DT} (hv : t.Valid) :
    read_last_processed_time (some (strftimeStr t)) = some t := by
  simp only [read_last_processed_time, strftimeStr]
  have hl : (String.mk (strftimeL t)).toList = strftimeL t := rfl
  rw [hl, pyStrip_strftimeL hv]
  rw [if_neg (by
    intro hnil
    have := strftimeL_head t
    rw [hnil] at this
    exact absurd this (by simp))]
  exact parseStamp_strftime hv

/-! ## Helper lemmas: line processing, candidates, coordinator invariant -/


theorem pyStrip_nil_all_ws {l : List Char} (h : pyStrip l = []) : ∀ c ∈ l, isWS c = true := by
  unfold pyStrip at h
  rw [List.reverse_eq_nil_iff, List.dropWhile_eq_nil_iff] at h
  intro c hc
  have hsplit := List.takeWhile_append_dropWhile isWS l
  rw [← hsplit] at hc
  rcases List.mem_append.mp hc with h1 | h2
  · exact List.mem_takeWhile_imp h1
  · exact h c (List.mem_reverse.mpr h2)

theorem searchWith_ws_none {lit2 : List Char} {scan : List Char → Option (List Char)} :
    ∀ {l : List Char}, (∀ c ∈ l, isWS c = true) → searchWith ('"' :: lit2) scan l = none := by
  intro l
  induction l with
  | nil => intro _; rfl
  | cons c cs ih =>
    intro h
    have hc := h c (List.mem_cons_self ..)
    have hq : (('"' :: lit2).isPrefixOf (c :: cs)) = false := by
      simp only [List.isPrefixOf, Bool.and_eq_false_iff]
      left
      cases hbe : ('"' == c) with
      | false => rfl
      | true =>
        obtain rfl := eq_of_beq hbe
        exact absurd hc (by decide)
    simp only [searchWith, hq, Bool.false_eq_true, if_false]
    exact ih (fun c2 hc2 => h c2 (List.mem_cons_of_mem _ hc2))

theorem lineTime_none_of_blank {line : String} (h : pyStrip line.toList = []) :
    lineTime line = none := by
  have hws := pyStrip_nil_all_ws h
  unfold lineTime
  have hlit : sysTimeLit = '"' :: "SystemTime\":\"".toList := rfl
  rw [hlit, searchWith_ws_none hws]
  rfl

theorem lineTime_valid {line : String} {t : DT} (h : lineTime line = some t) : t.Valid := by
  unfold lineTime at h
  cases hg : searchWith sysTimeLit (takeUntil '"') line.toList with
  | none => rw [hg] at h; exact absurd h (by simp)
  | some g =>
    rw [hg] at h
    simp only [Option.some_bind] at h
    exact parseStamp_valid h

theorem lineStep_blank {wm cand : Option DT} {line : String}
    (hb : pyStrip line.toList = []) : lineStep wm cand line = (none, cand) := by
  simp only [lineStep, if_pos hb]

theorem lineStep_noTime {wm cand : Option DT} {line : String}
    (hb : ¬ pyStrip line.toList = []) (ht : lineTime line = none) :
    lineStep wm cand line = (none, cand) := by
  simp only [lineStep, if_neg hb, ht]

theorem lineStep_skip {wm : DT} {cand : Option DT} {line : String} {t : DT}
    (hb : ¬ pyStrip line.toList = []) (ht : lineTime line = some t)
    (hle : t.toSec ≤ wm.toSec) :
    lineStep (some wm) cand line = (none, cand) := by
  simp only [lineStep, if_neg hb, ht, if_pos hle]

theorem lineStep_emit_some {wm : DT} {cand : Option DT} {line : String} {t : DT}
    (hb : ¬ pyStrip line.toList = []) (ht : lineTime line = some t)
    (hgt : ¬ t.toSec ≤ wm.toSec) :
    lineStep (some wm) cand line = (some (extractRecord line.toList t), bumpCand cand t) := by
  simp only [lineStep, if_neg hb, ht, if_neg hgt]

theorem lineStep_emit_none {cand : Option DT} {line : String} {t : DT}
    (hb : ¬ pyStrip line.toList = []) (ht : lineTime line = some t) :
    lineStep none cand line = (some (extractRecord line.toList t), bumpCand cand t) := by
  simp only [lineStep, if_neg hb, ht]

theorem lineStep_rec {wm cand : Option DT} {line : String} {o : Option Record} {c2 : Option DT}
    (h : lineStep wm cand line = (o, c2)) :
    (o = none ∧ c2 = cand) ∨
    (∃ t, lineTime line = some t ∧ o = some (extractRecord line.toList t) ∧
      c2 = bumpCand cand t ∧ (∀ w, wm = some w → w.toSec < t.toSec)) := by
  by_cases hb : pyStrip line.toList = []
  · rw [lineStep_blank hb] at h
    obtain ⟨h1, h2⟩ := Prod.mk.injEq .. ▸ h
    exact Or.inl ⟨h1.symm, h2.symm⟩
  · cases ht : lineTime line with
    | none =>
      rw [lineStep_noTime hb ht] at h
      obtain ⟨h1, h2⟩ := Prod.mk.injEq .. ▸ h
      exact Or.inl ⟨h1.symm, h2.symm⟩
    | some t =>
      cases wm with
      | none =>
        rw [lineStep_emit_none hb ht] at h
        obtain ⟨h1, h2⟩ := Prod.mk.injEq .. ▸ h
        exact Or.inr ⟨t, rfl, h1.symm, h2.symm, fun w hw => by exact absurd hw (by simp)⟩
      | some w =>
        by_cases hle : t.toSec ≤ w.toSec
        · rw [lineStep_skip hb ht hle] at h
          obtain ⟨h1, h2⟩ := Prod.mk.injEq .. ▸ h
          exact Or.inl ⟨h1.symm, h2.symm⟩
        · rw [lineStep_emit_some hb ht hle] at h
          obtain ⟨h1, h2⟩ := Prod.mk.injEq .. ▸ h
          refine Or.inr ⟨t, rfl, h1.symm, h2.symm, ?_⟩
          intro w2 hw2
          obtain rfl := Option.some.injEq .. ▸ hw2
          omega



theorem optValidB_some {t : DT} (h : t.Valid) : optValidB (some t) = true := by
  simp [optValidB, h]

theorem optValidB_some_elim {t : DT} (h : optValidB (some t) = true) : t.Valid := by
  simpa [optValidB] using h

theorem bumpCand_valid {cand : Option DT} {t : DT} (hc : optValidB cand = true)
    (ht : t.Valid) : optValidB (bumpCand cand t) = true := by
  cases cand with
  | none => simpa [bumpCand] using optValidB_some ht
  | some c =>
    simp only [bumpCand]
    split
    · exact optValidB_some ht
    · exact hc

theorem plfAux_cand_valid {wm : Option DT} :
    ∀ (lines : List String) (acc : List Record) (cand : Option DT),
      optValidB cand = true → optValidB (plfAux wm lines (acc, cand)).2 = true := by
  intro lines
  induction lines with
  | nil => intro acc cand h; exact h
  | cons l ls ih =>
    intro acc cand h
    rcases hE : lineStep wm cand l with ⟨o, c2⟩
    have hc2 : optValidB c2 = true := by
      rcases lineStep_rec hE with ⟨_, rfl⟩ | ⟨t, ht, _, rfl, _⟩
      · exact h
      · exact bumpCand_valid h (lineTime_valid ht)
    cases o with
    | none => simpa only [plfAux, hE] using ih acc c2 hc2
    | some r => simpa only [plfAux, hE] using ih (acc ++ [r]) c2 hc2

theorem process_log_file_cand_valid {content : Except Unit (List String)} {wm : Option DT}
    (h : optValidB wm = true) : optValidB (process_log_file content wm).2 = true := by
  cases content with
  | error e => exact h
  | ok lines => exact plfAux_cand_valid lines [] wm h

theorem obLe_refl (a : Option DT) : obLe a a = true := by
  cases a <;> simp [obLe]

theorem obLe_trans {a b c : Option DT} (h1 : obLe a b = true) (h2 : obLe b c = true) :
    obLe a c = true := by
  cases a with
  | none => rfl
  | some x =>
    cases b with
    | none => exact absurd h1 (by simp [obLe])
    | some y =>
      cases c with
      | none => exact absurd h2 (by simp [obLe])
      | some z =>
        simp only [obLe, decide_eq_true_eq] at h1 h2 ⊢
        omega

theorem obLe_updateLpt (lpt r : Option DT) : obLe lpt (updateLpt lpt r) = true := by
  cases r with
  | none => exact obLe_refl lpt
  | some t =>
    cases lpt with
    | none => rfl
    | some l =>
      simp only [updateLpt]
      split
      · next hlt => simp only [obLe, decide_eq_true_eq]; omega
      · exact obLe_refl _

theorem updateLpt_valid {lpt r : Option DT} (h1 : optValidB lpt = true)
    (h2 : optValidB r = true) : optValidB (updateLpt lpt r) = true := by
  cases r with
  | none => exact h1
  | some t =>
    cases lpt with
    | none => exact h2
    | some l =>
      simp only [updateLpt]
      split
      · exact h2
      · exact h1

theorem pail_snd (queryOk insertOk : Bool) (sink : List SinkRow) (wm : Option DT)
    (content : Except Unit (List String)) :
    (process_and_insert_log queryOk insertOk sink wm content).2 =
      (process_log_file content wm).2 := by
  simp only [process_and_insert_log]
  split <;> rfl

theorem cycleFold_lpt {qk ik : Bool} {wm0 : Option DT} (h0 : optValidB wm0 = true) :
    ∀ (files : List (String × Except Unit (List String)))
      (sink : List SinkRow) (lpt : Option DT) (seen : List String),
      optValidB lpt = true →
      obLe lpt (files.foldl (cycleStep qk ik wm0) (sink, lpt, seen)).2.1 = true ∧
      optValidB (files.foldl (cycleStep qk ik wm0) (sink, lpt, seen)).2.1 = true := by
  intro files
  induction files with
  | nil => intro sink lpt seen h1; exact ⟨obLe_refl lpt, h1⟩
  | cons f fs ih =>
    intro sink lpt seen h1
    rw [List.foldl_cons]
    have hstep : cycleStep qk ik wm0 (sink, lpt, seen) f =
        ((process_and_insert_log qk ik sink wm0 f.2).1,
         updateLpt lpt (process_log_file f.2 wm0).2, seen ++ [f.1]) := by
      simp only [cycleStep, pail_snd]
    rw [hstep]
    have hr : optValidB (process_log_file f.2 wm0).2 = true :=
      process_log_file_cand_valid h0
    have h2 : optValidB (updateLpt lpt (process_log_file f.2 wm0).2) = true :=
      updateLpt_valid h1 hr
    obtain ⟨ha, hb⟩ := ih (process_and_insert_log qk ik sink wm0 f.2).1
      (updateLpt lpt (process_log_file f.2 wm0).2) (seen ++ [f.1]) h2
    exact ⟨obLe_trans (obLe_updateLpt lpt _) ha, hb⟩



theorem runCycle_lpt (qk ik : Bool) (st : CoordState)
    (files : List (String × Except Unit (List String))) :
    (runCycle qk ik st files).lpt =
      (files.foldl (cycleStep qk ik st.lpt) (st.sink, st.lpt, st.seen)).2.1 := rfl

theorem runCycle_bookmark (qk ik : Bool) (st : CoordState)
    (files : List (String × Except Unit (List String))) :
    (runCycle qk ik st files).bookmark =
      (match (files.foldl (cycleStep qk ik st.lpt) (st.sink, st.lpt, st.seen)).2.1 with
        | some t => some (update_last_processed_time t)
        | none => st.bookmark) := rfl

theorem runCycle_inv (qk ik : Bool) (st : CoordState)
    (files : List (String × Except Unit (List String))) (h : Inv st) :
    Inv (runCycle qk ik st files) ∧
    obLe (read_last_processed_time st.bookmark)
      (read_last_processed_time (runCycle qk ik st files).bookmark) = true := by
  obtain ⟨hb, hv⟩ := h
  obtain ⟨hmono, hvalid⟩ := cycleFold_lpt hv files st.sink st.lpt st.seen hv
  have hL := runCycle_lpt qk ik st files
  have hB := runCycle_bookmark qk ik st files
  cases hl : (files.foldl (cycleStep qk ik st.lpt) (st.sink, st.lpt, st.seen)).2.1 with
  | none =>
    rw [hl] at hL hB hmono
    constructor
    · constructor
      · rw [hB, hL]
        exact obLe_trans hb hmono
      · rw [hL]; rfl
    · rw [hB]
      exact obLe_refl _
  | some t =>
    rw [hl] at hL hB hmono hvalid
    have htv : t.Valid := optValidB_some_elim hvalid
    have hread : read_last_processed_time (some (update_last_processed_time t)) = some t :=
      read_strftime htv
    constructor
    · constructor
      · rw [hB, hL, hread]
        exact obLe_refl _
      · rw [hL]
        exact hvalid
    · rw [hB, hread]
      exact obLe_trans hb hmono

theorem runCycles_inv :
    ∀ (cycles : List (Bool × Bool × List (String × Except Unit (List String))))
      (st : CoordState), Inv st →
      Inv (runCycles st cycles) ∧
      obLe (read_last_processed_time st.bookmark)
        (read_last_processed_time (runCycles st cycles).bookmark) = true := by
  intro cycles
  induction cycles with
  | nil => intro st h; exact ⟨h, obLe_refl _⟩
  | cons c cs ih =>
    intro st h
    obtain ⟨h1, h2⟩ := runCycle_inv c.1 c.2.1 _ c.2.2 h
    obtain ⟨h3, h4⟩ := ih (runCycle c.1 c.2.1 st c.2.2) h1
    refine ⟨?_, ?_⟩
    · simpa only [runCycles, List.foldl_cons] using h3
    · simp only [runCycles, List.foldl_cons]
      exact obLe_trans h2 (by simpa only [runCycles] using h4)


/-! ## Claim-level theorems -/


theorem updateLpt_self (lpt : Option DT) : updateLpt lpt lpt = lpt := by
  cases lpt with
  | none => rfl
  | some l => simp [updateLpt]

theorem plfAux_mem_gt {w : DT} :
    ∀ (lines : List String) (acc : List Record) (cand : Option DT) (r : Record),
      (∀ r2 ∈ acc, ∀ t2, parseStamp ' ' false r2.system_time.toList = some t2 →
        w.toSec < t2.toSec) →
      r ∈ (plfAux (some w) lines (acc, cand)).1 →
      ∀ t2, parseStamp ' ' false r.system_time.toList = some t2 → w.toSec < t2.toSec := by
  intro lines
  induction lines with
  | nil => intro acc cand r hacc hmem; exact hacc r hmem
  | cons l ls ih =>
    intro acc cand r hacc hmem
    rcases hE : lineStep (some w) cand l with ⟨o, c2⟩
    rcases lineStep_rec hE with ⟨ho, hc⟩ | ⟨t, ht, ho, hc, hgt⟩
    · rw [ho, hc] at hE
      rw [show plfAux (some w) (l :: ls) (acc, cand) = plfAux (some w) ls (acc, cand) from by
        simp only [plfAux, hE]] at hmem
      exact ih acc cand r hacc hmem
    · rw [ho, hc] at hE
      rw [show plfAux (some w) (l :: ls) (acc, cand) =
          plfAux (some w) ls (acc ++ [extractRecord l.toList t], bumpCand cand t) from by
        simp only [plfAux, hE]] at hmem
      refine ih _ _ r ?_ hmem
      intro r2 h2 t2 hp2
      rcases List.mem_append.mp h2 with h3 | h3
      · exact hacc r2 h3 t2 hp2
      · obtain rfl := List.mem_singleton.mp h3
        have hv : t.Valid := lineTime_valid ht
        have hst : (extractRecord l.toList t).system_time.toList = strftimeL t := rfl
        rw [hst, parseStamp_strftime hv] at hp2
        obtain rfl := Option.some.injEq .. ▸ hp2
        exact hgt w rfl


/-- C1: if the sink commit for a cycle's batch fails, the bookmark still
advances: `insert_data_to_sql` swallows the database error, so
`process_and_insert_log` returns its candidate and `monitor_folder`
persists it. With bookmark at `00:00:01` and a new line at `00:00:02`
whose insert fails, nothing lands in the sink yet the bookmark becomes
`00:00:02`. -/
theorem c1_failed_commit_still_advances_watermark :
    stSteady.bookmark = some "2024-01-01 00:00:01" ∧
    (runCycle true false stSteady [("f.log", Except.ok [lineSec 2])]).sink = [] ∧
    (runCycle true false stSteady [("f.log", Except.ok [lineSec 2])]).bookmark =
      some "2024-01-01 00:00:02" := by
  refine ⟨?_, ?_, ?_⟩ <;> decide

/-- C2 counterexample: in the bootstrap run over three files of two lines
each (prior sink max cluster id 5), the inserted rows do NOT all share one
cluster id: each file is committed as its own batch with its own fresh id. -/
theorem c2_counterexample_no_single_shared_cluster_id :
    bootSt.sink.map (fun r => r.dbscan_cluster) = [5, 6, 6, 7, 7, 8, 8] ∧
    ¬ ∃ c : Int,
      ((bootSt.sink.map (fun r => r.dbscan_cluster)).drop 1).all (fun x => x == c) = true := by
  constructor
  · decide
  · rintro ⟨c, hc⟩
    rw [show (bootSt.sink.map (fun r => r.dbscan_cluster)).drop 1 = [6, 6, 7, 7, 8, 8] from by
      decide] at hc
    simp only [List.all_cons, List.all_nil, Bool.and_eq_true, beq_iff_eq] at hc
    omega

/-- C2 amended: the bootstrap run inserts exactly 6 rows and persists
watermark t6, but as three per-file batches whose cluster ids are 6, 7
and 8 (each fetched as max+1 at that file's commit), not one merged batch
under a single id. -/
theorem c2_amended_bootstrap_six_rows_three_cluster_ids :
    bootSt.sink.length = 7 ∧
    bootSt.sink.map (fun r => r.dbscan_cluster) = [5, 6, 6, 7, 7, 8, 8] ∧
    bootSt.lpt = some ⟨2024, 1, 1, 0, 0, 6⟩ ∧
    bootSt.bookmark = some "2024-01-01 00:00:06" := by
  refine ⟨?_, ?_, ?_, ?_⟩ <;> decide

/-- C3: a line whose SystemTime is missing or unparseable is dropped, not
emitted: the Python variable is `None` at the append's
`system_time.strftime(...)`, which raises and is caught by the per-line
handler. Both sample lines have an extractable title, one has a matching
but unparseable SystemTime, and neither produces a record. -/
theorem c3_unparseable_or_missing_time_drops_line :
    extract_title noTimeLine.toList = some "Alert C" ∧
    extract_title badTimeLine.toList = some "Alert B" ∧
    (searchWith sysTimeLit (takeUntil '"') badTimeLine.toList).isSome = true ∧
    lineTime badTimeLine = none ∧
    process_log_file (Except.ok [noTimeLine, badTimeLine]) none = ([], none) := by
  refine ⟨?_, ?_, ?_, ?_, ?_⟩ <;> decide

/-- C4 counterexample: a file whose read raises an error IS added to the
processed-file set (the error is swallowed inside `process_log_file`, so
the future succeeds and line 300 marks the file seen); it is therefore not
retried on the next tick. -/
theorem c4_counterexample_read_error_file_in_seen :
    (runCycle true true stSteady [("bad.log", Except.error ())]).seen = ["bad.log"] := by
  decide

/-- C4 amended: a file whose read fails contributes no records and no
candidate (sink and in-memory watermark unchanged), but it IS added to the
processed-file set, so it is not retried on the next polling tick. -/
theorem c4_amended_read_error_no_effect_but_marked_seen :
    ∀ (st : CoordState) (name : String),
      (runCycle true true st [(name, Except.error ())]).sink = st.sink ∧
      (runCycle true true st [(name, Except.error ())]).lpt = st.lpt ∧
      (runCycle true true st [(name, Except.error ())]).seen = st.seen ++ [name] := by
  intro st name
  refine ⟨?_, ?_, ?_⟩ <;>
    simp [runCycle, cycleStep, process_and_insert_log, process_log_file, updateLpt_self]



/-- C5: a line with a parseable SystemTime is emitted iff the watermark is
absent or the line's time is strictly greater; on emission the candidate is
raised to the line's time exactly when it exceeds the candidate so far (and
is untouched otherwise); and no record whose stored event time is at or
below the in-effect watermark is ever emitted. -/
theorem c5_strict_watermark_filter :
    ∀ (wm cand : Option DT) (line : String) (t : DT), lineTime line = some t →
      ((((lineStep wm cand line).1).isSome = true) ↔
        (wm = none ∨ ∃ w, wm = some w ∧ w.toSec < t.toSec)) ∧
      (((lineStep wm cand line).1).isSome = true →
        (lineStep wm cand line).2 =
          (match cand with
            | none => some t
            | some c => if c.toSec < t.toSec then some t else cand)) ∧
      (((lineStep wm cand line).1).isSome = false → (lineStep wm cand line).2 = cand) ∧
      (∀ (lines : List String) (w : DT) (r : Record), wm = some w →
        r ∈ (process_log_file (Except.ok lines) wm).1 →
        ∀ t2, parseStamp ' ' false r.system_time.toList = some t2 → w.toSec < t2.toSec) := by
  intro wm cand line t ht
  have hb : ¬ pyStrip line.toList = [] := by
    intro hbl
    rw [lineTime_none_of_blank hbl] at ht
    exact absurd ht (by simp)
  refine ⟨?_, ?_, ?_, ?_⟩
  · cases wm with
    | none =>
      rw [lineStep_emit_none hb ht]
      simp
    | some w =>
      by_cases hle : t.toSec ≤ w.toSec
      · rw [lineStep_skip hb ht hle]
        refine iff_of_false (by simp) ?_
        rintro (h | ⟨w2, hw2, hlt⟩)
        · exact absurd h (by simp)
        · obtain rfl := Option.some.injEq .. ▸ hw2
          omega
      · rw [lineStep_emit_some hb ht hle]
        refine iff_of_true (by simp) (Or.inr ⟨w, rfl, by omega⟩)
  · intro hemit
    cases wm with
    | none => rw [lineStep_emit_none hb ht]; rfl
    | some w =>
      by_cases hle : t.toSec ≤ w.toSec
      · rw [lineStep_skip hb ht hle] at hemit
        exact absurd hemit (by simp)
      · rw [lineStep_emit_some hb ht hle]; rfl
  · intro hnone
    cases wm with
    | none =>
      rw [lineStep_emit_none hb ht] at hnone
      exact absurd hnone (by simp)
    | some w =>
      by_cases hle : t.toSec ≤ w.toSec
      · rw [lineStep_skip hb ht hle]
      · rw [lineStep_emit_some hb ht hle] at hnone
        exact absurd hnone (by simp)
  · intro lines w r hwm hmem t2 hp
    subst hwm
    exact plfAux_mem_gt lines [] (some w) r
      (fun r2 h2 => absurd h2 (List.not_mem_nil r2)) hmem t2 hp

/-- C5 witness: at watermark `00:00:01` a line at `00:00:02` satisfies the
emission biconditional. -/
theorem c5_witness :
    lineTime (lineSec 2) = some ⟨2024, 1, 1, 0, 0, 2⟩ ∧
    (((lineStep (some dt1) none (lineSec 2)).1).isSome = true ↔
      (some dt1 = none ∨ ∃ w, some dt1 = some w ∧
        w.toSec < (⟨2024, 1, 1, 0, 0, 2⟩ : DT).toSec)) :=
  ⟨by decide,
   (c5_strict_watermark_filter (some dt1) none (lineSec 2) ⟨2024, 1, 1, 0, 0, 2⟩ (by decide)).1⟩



/-- C6: across any sequence of scan cycles, the timestamp readable from the
persisted bookmark is monotonically non-decreasing, given the loop
invariant (persisted value at most the in-memory watermark, which is a
range-valid timestamp) that holds on entry to the steady-state loop. -/
theorem c6_persisted_watermark_monotone :
    ∀ (cycles : List (Bool × Bool × List (String × Except Unit (List String))))
      (st : CoordState), Inv st →
      obLe (read_last_processed_time st.bookmark)
        (read_last_processed_time (runCycles st cycles).bookmark) = true :=
  fun cycles st h => (runCycles_inv cycles st h).2

/-- C6 witness: one concrete cycle (advancing the watermark from
`00:00:01` to `00:00:02`) keeps the persisted value non-decreasing. -/
theorem c6_witness :
    Inv stSteady ∧
    obLe (read_last_processed_time stSteady.bookmark)
      (read_last_processed_time
        (runCycles stSteady [(true, true, [("f.log", Except.ok [lineSec 2])])]).bookmark)
      = true :=
  ⟨by decide,
   c6_persisted_watermark_monotone [(true, true, [("f.log", Except.ok [lineSec 2])])]
     stSteady (by decide)⟩

/-- C7 counterexample: a line carrying leading/trailing whitespace is
emitted with `raw` differing from the original line (the source stores
`line.strip()`). -/
theorem c7_counterexample_raw_not_verbatim :
    (process_log_file (Except.ok [trailingLine]) none).1.length = 1 ∧
    ((process_log_file (Except.ok [trailingLine]) none).1.all
      (fun r => r.raw != trailingLine)) = true := by
  refine ⟨?_, ?_⟩ <;> decide

/-- C7 amended: every emitted record's `raw` field equals the original
line with leading and trailing whitespace stripped (Python
`line.strip()`), even when other fields fail to parse. -/
theorem c7_amended_raw_is_stripped_line :
    ∀ (wm cand : Option DT) (line : String) (r : Record),
      (lineStep wm cand line).1 = some r → r.raw = pyStripStr line := by
  intro wm cand line r h
  rcases hE : lineStep wm cand line with ⟨o, c2⟩
  rw [hE] at h
  rcases lineStep_rec hE with ⟨ho, _⟩ | ⟨t, _, ho, _, _⟩
  · rw [ho] at h
    exact absurd h (by simp)
  · rw [ho] at h
    obtain rfl := Option.some.injEq .. ▸ h.symm
    rfl

/-- C7 witness: the concrete whitespace-carrying line is emitted and its
`raw` equals the stripped line. -/
theorem c7_witness :
    (lineStep none none trailingLine).1 = some trailingRec ∧
    trailingRec.raw = pyStripStr trailingLine :=
  ⟨by decide, c7_amended_raw_is_stripped_line none none trailingLine trailingRec (by decide)⟩

/-- C8: the bookmark load returns absent exactly when the file does not
exist, its stripped content is empty, or the content fails to parse as a
`%Y-%m-%d %H:%M:%S` timestamp; it is a total function, so a corrupt
bookmark is never fatal. -/
theorem c8_bookmark_load_none_iff :
    ∀ bk : Option String, read_last_processed_time bk = none ↔
      (bk = none ∨ ∃ s, bk = some s ∧
        (pyStrip s.toList = [] ∨ parseStamp ' ' false (pyStrip s.toList) = none)) := by
  intro bk
  cases bk with
  | none => simp [read_last_processed_time]
  | some s =>
    simp only [read_last_processed_time]
    by_cases h : pyStrip s.toList = []
    · rw [if_pos h]
      exact iff_of_true rfl (Or.inr ⟨s, rfl, Or.inl h⟩)
    · rw [if_neg h]
      constructor
      · intro hp
        exact Or.inr ⟨s, rfl, Or.inr hp⟩
      · rintro (hn | ⟨s2, hs2, hor⟩)
        · exact absurd hn (by simp)
        · obtain rfl := Option.some.injEq .. ▸ hs2
          rcases hor with h1 | h1
          · exact absurd h1 h
          · exact h1

/-- C9: the File Processor is deterministic: equal file contents and equal
watermarks give identical record lists and candidates. -/
theorem c9_file_processor_deterministic :
    ∀ (contentA contentB : Except Unit (List String)) (wmA wmB : Option DT),
      contentA = contentB → wmA = wmB →
      process_log_file contentA wmA = process_log_file contentB wmB := by
  intro cA cB wA wB h1 h2
  rw [h1, h2]

/-- C9 witness: determinism at a concrete file and watermark. -/
theorem c9_witness :
    process_log_file (Except.ok [lineSec 3]) none =
      process_log_file (Except.ok [lineSec 3]) none :=
  c9_file_processor_deterministic _ _ _ _ rfl rfl

/-- C10: `get_max_cluster_value` returns 0 both on an empty table (NULL
cell) and on a failed query; an empty table therefore yields cluster id 1,
and after a transient query error a batch is assigned id 1 even though a
prior row already carries id 1 (reuse). -/
theorem c10_max_cluster_zero_fallback_enables_reuse :
    get_max_cluster_value (Except.ok none) = 0 ∧
    get_max_cluster_value (Except.error ()) = 0 ∧
    maxClusterQuery [] = none ∧
    (process_and_insert_log true true [] none (Except.ok [lineSec 1])).1.map
      (fun r => r.dbscan_cluster) = [1] ∧
    (process_and_insert_log false true [priorRow1] none (Except.ok [lineSec 1])).1.map
      (fun r => r.dbscan_cluster) = [1, 1] := by
  refine ⟨rfl, rfl, rfl, ?_, ?_⟩ <;> decide


end SQLPy
